import Mathlib

/-!
Verification of the NHazid hazard-analysis table application.

The development shallowly embeds the data model and the algorithmic core of
`src/unnamed/part_000` (and its duplicate `src/app.js`): the block row-count
calculator and row-span allocator of `exportToExcel`, the risk-matrix
helpers (`computeRiskScore`, `getRiskLevelColor`, `getRiskLevel`,
`updateRiskMatrix`), the risk-matrix configuration export/import
(`loadRiskMatrixFromJSON`), and the persistence layer (`persist.load`,
`persist.save`, hazard restoration in `init`).

JavaScript numbers are modelled as `Int` (all the arithmetic involved stays
in the exact-integer range), ratios as `ℚ`, JS strings as `String` with `""`
for the falsy empty string, possibly-missing JSON fields as `Option`, and JS
objects used as string-keyed maps as association lists whose generated keys
are pairwise distinct.
-/

namespace NHazid

/-- `Measure = { id, text }` (part_000 line 19). -/
structure HMeasure where
  id : String
  text : String
deriving Repr, DecidableEq

/-- `Cause = { id, text, preventionMeasures: Measure[] }` (part_000 line 16). -/
structure Cause where
  id : String
  text : String
  preventionMeasures : List HMeasure
deriving Repr, DecidableEq

/-- `Risk = { severityCategory, severityLevel, likelihoodLevel, riskScore }`
(part_000 line 20); unset fields are the empty string. -/
structure Risk where
  severityCategory : String
  severityLevel : String
  likelihoodLevel : String
  riskScore : String
deriving Repr, DecidableEq

/-- `Consequence = { id, text, mitigationMeasures: Measure[], risk: Risk }`
(part_000 line 17). -/
structure Consequence where
  id : String
  text : String
  mitigationMeasures : List HMeasure
  risk : Risk
deriving Repr, DecidableEq

/-- `Recommendation = { id, action, responsible }` (part_000 line 18). -/
structure Recommendation where
  id : String
  action : String
  responsible : String
deriving Repr, DecidableEq

/-- `Hazard = { id, title, description, causes, consequences, recommendations }`
(part_000 line 15). -/
structure Hazard where
  id : String
  title : String
  description : String
  causes : List Cause
  consequences : List Consequence
  recommendations : List Recommendation
deriving Repr, DecidableEq

/-- A likelihood level `{ id, label, description }` (part_000 lines 92-98). -/
structure LikelihoodLevel where
  id : String
  label : String
  description : String
deriving Repr, DecidableEq

/-- A severity level `{ id, label, description, category }`
(part_000 lines 99-105). -/
structure SeverityLevel where
  id : String
  label : String
  description : String
  category : String
deriving Repr, DecidableEq

/-- A risk level `{ id, label, color }` (part_000 lines 143-147). -/
structure RiskLevel where
  id : String
  label : String
  color : String
deriving Repr, DecidableEq

/-- The default likelihood list of `state.riskMatrix.likelihood`
(part_000 lines 92-98). -/
def defaultLikelihood : List LikelihoodLevel :=
  [ ⟨"A", "A", "Very unlikely"⟩
  , ⟨"B", "B", "Unlikely"⟩
  , ⟨"C", "C", "Possible"⟩
  , ⟨"D", "D", "Likely"⟩
  , ⟨"E", "E", "Very likely"⟩ ]

/-- The default severity list of `state.riskMatrix.severity`
(part_000 lines 99-105). -/
def defaultSeverity : List SeverityLevel :=
  [ ⟨"1", "1", "Negligible effect", "personnel"⟩
  , ⟨"2", "2", "Minor effect", "personnel"⟩
  , ⟨"3", "3", "Moderate effect", "personnel"⟩
  , ⟨"4", "4", "Major effect", "personnel"⟩
  , ⟨"5", "5", "Severest effect", "personnel"⟩ ]

/-- The default risk-level list of `state.riskMatrix.riskLevels`
(part_000 lines 143-147). -/
def defaultRiskLevels : List RiskLevel :=
  [ ⟨"low", "Low", "#28a745"⟩
  , ⟨"medium", "Medium", "#ffc107"⟩
  , ⟨"high", "High", "#dc3545"⟩ ]

/-- The matrix key `` `${likelihoodLevel}-${severityLevel}` ``
(part_000 line 155). -/
def matrixKey (likelihoodId severityId : String) : String :=
  likelihoodId ++ "-" ++ severityId

/-- JS property access on an object used as a string-keyed map, modelled on
the association list of its entries. The objects built by the program have
pairwise-distinct keys, so first match and JS last-write agree. Returns
`none` for an absent property (JS `undefined`). -/
def objGet (entries : List (String × RiskLevel)) (key : String) : Option RiskLevel :=
  match entries with
  | [] => none
  | kv :: rest => if kv.1 = key then some kv.2 else objGet rest key

/-- `computeRiskScore` (part_000 lines 153-158): empty label when either
level is unset (falsy) or the matrix has no cell for the key. -/
def computeRiskScore (matrix : List (String × RiskLevel))
    (severityLevel likelihoodLevel : String) : String :=
  if severityLevel = "" ∨ likelihoodLevel = "" then ""
  else
    match objGet matrix (matrixKey likelihoodLevel severityLevel) with
    | some riskLevel => riskLevel.label
    | none => ""

/-- `getRiskLevelColor` (part_000 lines 160-165). -/
def getRiskLevelColor (matrix : List (String × RiskLevel))
    (severityLevel likelihoodLevel : String) : String :=
  if severityLevel = "" ∨ likelihoodLevel = "" then ""
  else
    match objGet matrix (matrixKey likelihoodLevel severityLevel) with
    | some riskLevel => riskLevel.color
    | none => ""

/-- `getRiskLevel` (part_000 lines 167-172). -/
def getRiskLevel (matrix : List (String × RiskLevel))
    (severityLevel likelihoodLevel : String) : String :=
  if severityLevel = "" ∨ likelihoodLevel = "" then ""
  else
    match objGet matrix (matrixKey likelihoodLevel severityLevel) with
    | some riskLevel => riskLevel.label
    | none => ""

/-- The cell rule inside `updateRiskMatrix` (part_000 lines 180-190):
`riskRatio = (li + si) / ((likelihoodCount - 1) + (severityCount - 1))`;
risk level at ordinal 2 when the ratio is `>= 0.7`, ordinal 1 when `>= 0.4`,
ordinal 0 otherwise. Within the generating loops `riskSum = 0` whenever
`maxSum = 0`, and both JS `NaN` (from `0/0`) and Lean's `0/0 = 0` fail the
two `>=` comparisons, so the `ℚ` model agrees with the source on every
generated cell. The result is `none` (JS `undefined`) when the risk-level
list is too short. -/
def defaultRiskLevelFor (riskLevels : List RiskLevel)
    (likelihoodCount severityCount li si : Nat) : Option RiskLevel :=
  let riskSum : ℚ := (li : ℚ) + (si : ℚ)
  let maxSum : ℚ := ((likelihoodCount : ℚ) - 1) + ((severityCount : ℚ) - 1)
  let riskRatio : ℚ := riskSum / maxSum
  if (7 : ℚ) / 10 ≤ riskRatio then riskLevels[2]?
  else if (4 : ℚ) / 10 ≤ riskRatio then riskLevels[1]?
  else riskLevels[0]?

/-- `updateRiskMatrix` (part_000 lines 174-193): rebuild the mapping from
scratch, one entry per (likelihood, severity) pair in nested loop order. A
cell whose risk level would be JS `undefined` is modelled as an absent
entry, which every reader treats identically. -/
def updateRiskMatrix (likelihood : List LikelihoodLevel)
    (severity : List SeverityLevel) (riskLevels : List RiskLevel) :
    List (String × RiskLevel) :=
  likelihood.enum.flatMap fun likE =>
    severity.enum.filterMap fun sevE =>
      (defaultRiskLevelFor riskLevels likelihood.length severity.length
          likE.1 sevE.1).map
        fun riskLevel => (matrixKey likE.2.id sevE.2.id, riskLevel)

/-- `totalPreventionMeasures` (part_000 lines 909-912): sum over causes of
`max(preventionMeasures.length, 1)`, starting from 0. -/
def totalPreventionMeasures (h : Hazard) : Nat :=
  h.causes.foldl (fun sum cause => sum + max cause.preventionMeasures.length 1) 0

/-- `totalMitigationMeasures` (part_000 lines 915-918): sum over consequences
of `max(mitigationMeasures.length, 1)`, starting from 0. -/
def totalMitigationMeasures (h : Hazard) : Nat :=
  h.consequences.foldl (fun sum cons => sum + max cons.mitigationMeasures.length 1) 0

/-- `blockRows` (part_000 line 921):
`Math.max(totalPreventionMeasures, totalMitigationMeasures, 1)`. -/
def blockRows (h : Hazard) : Nat :=
  max (max (totalPreventionMeasures h) (totalMitigationMeasures h)) 1

/-- A row range inside a hazard block: 0-based start row and row span, both
exact JS-number integers. -/
structure SpanAlloc where
  start : Int
  span : Int
deriving Repr, DecidableEq

/-- The natural span of an item with `n` measures: `Math.max(n, 1)`
(part_000 lines 936 and 967). -/
def natSpan (n : Nat) : Int := max (n : Int) 1

/-- The item walk of `exportToExcel` (part_000 lines 932-961 for causes,
963-999 for consequences), abstracted over the measure counts: each item
takes its natural span, except that the last item's span is overridden to
`blockRows - offset`. An empty list produces no allocations. -/
def allocItems (blockRows offset : Int) : List Nat → List SpanAlloc
  | [] => []
  | [_] => [⟨offset, blockRows - offset⟩]
  | n :: m :: rest =>
      ⟨offset, natSpan n⟩ :: allocItems blockRows (offset + natSpan n) (m :: rest)

/-- The per-item measure walk (part_000 lines 948-958 and 979-989): when the
item has `m > 0` measures, measure `mi` starts at `itemStart + mi` with span
1, except the last measure whose span is `itemSpan - mi`. No measure cells
are produced when `m = 0`. -/
def allocMeasures (itemStart itemSpan : Int) (m : Nat) : List SpanAlloc :=
  (List.range m).map fun (mi : Nat) =>
    ⟨itemStart + (mi : Int), if mi = m - 1 then itemSpan - (mi : Int) else 1⟩

/-- The measure counts of a hazard's causes, in order. -/
def causeMeasureCounts (h : Hazard) : List Nat :=
  h.causes.map fun cause => cause.preventionMeasures.length

/-- The measure counts of a hazard's consequences, in order. -/
def consMeasureCounts (h : Hazard) : List Nat :=
  h.consequences.map fun cons => cons.mitigationMeasures.length

/-- The cause-side row allocation of a hazard block, relative to the block's
first row (part_000 lines 932-961). -/
def allocCauses (h : Hazard) : List SpanAlloc :=
  allocItems (blockRows h) 0 (causeMeasureCounts h)

/-- The consequence-side row allocation of a hazard block, relative to the
block's first row (part_000 lines 963-999). -/
def allocConsequences (h : Hazard) : List SpanAlloc :=
  allocItems (blockRows h) 0 (consMeasureCounts h)

/-! ### General lemmas about the allocator -/

theorem natSpan_cast (n : Nat) : natSpan n = ((max n 1 : Nat) : Int) := by
  simp [natSpan, Nat.cast_max]

theorem one_le_natSpan (n : Nat) : 1 ≤ natSpan n := le_max_right _ _

theorem foldl_add_eq_add_sum {α : Type} (f : α → Nat) (l : List α) (a : Nat) :
    l.foldl (fun s x => s + f x) a = a + (l.map f).sum := by
  induction l generalizing a with
  | nil => simp
  | cons x xs ih => simp [ih, Nat.add_assoc]

theorem totalPreventionMeasures_eq_sum (h : Hazard) :
    totalPreventionMeasures h
      = ((h.causes.map fun c => max c.preventionMeasures.length 1).sum) := by
  simpa using foldl_add_eq_add_sum
    (fun c : Cause => max c.preventionMeasures.length 1) h.causes 0

theorem totalMitigationMeasures_eq_sum (h : Hazard) :
    totalMitigationMeasures h
      = ((h.consequences.map fun c => max c.mitigationMeasures.length 1).sum) := by
  simpa using foldl_add_eq_add_sum
    (fun c : Consequence => max c.mitigationMeasures.length 1) h.consequences 0

theorem natSpan_sum_causes (h : Hazard) :
    ((causeMeasureCounts h).map natSpan).sum = (totalPreventionMeasures h : Int) := by
  simp only [totalPreventionMeasures_eq_sum, Nat.cast_list_sum, causeMeasureCounts,
    List.map_map]
  exact congrArg List.sum
    (List.map_congr_left fun c _ => by simp [Function.comp, natSpan, Nat.cast_max])

theorem natSpan_sum_cons (h : Hazard) :
    ((consMeasureCounts h).map natSpan).sum = (totalMitigationMeasures h : Int) := by
  simp only [totalMitigationMeasures_eq_sum, Nat.cast_list_sum, consMeasureCounts,
    List.map_map]
  exact congrArg List.sum
    (List.map_congr_left fun c _ => by simp [Function.comp, natSpan, Nat.cast_max])

theorem allocItems_length (b off : Int) (ns : List Nat) :
    (allocItems b off ns).length = ns.length := by
  induction ns generalizing off with
  | nil => rfl
  | cons n rest ih =>
    cases rest with
    | nil => rfl
    | cons m rest2 => simpa [allocItems] using ih (off + natSpan n)

theorem allocItems_span_sum (b off : Int) (ns : List Nat) (h : ns ≠ []) :
    ((allocItems b off ns).map SpanAlloc.span).sum = b - off := by
  induction ns generalizing off with
  | nil => exact absurd rfl h
  | cons n rest ih =>
    cases rest with
    | nil => simp [allocItems]
    | cons m rest2 =>
      have hr := ih (off + natSpan n) (by simp)
      simp only [allocItems, List.map_cons, List.sum_cons, hr]
      ring

theorem allocItems_start (b off : Int) (ns : List Nat) (i : Nat)
    (hi : i < (allocItems b off ns).length) :
    ((allocItems b off ns)[i]).start = off + ((ns.take i).map natSpan).sum := by
  induction ns generalizing off i with
  | nil => simp [allocItems] at hi
  | cons n rest ih =>
    cases rest with
    | nil =>
      have h0 : i = 0 := by
        simpa [allocItems, Nat.lt_one_iff] using hi
      subst h0
      simp [allocItems]
    | cons m rest2 =>
      cases i with
      | zero => simp [allocItems]
      | succ j =>
        have hj : j < (allocItems b (off + natSpan n) (m :: rest2)).length := by
          have := hi
          simpa [allocItems] using this
        have hrec := ih (off + natSpan n) j hj
        simp only [allocItems, List.getElem_cons_succ, hrec, List.take_succ_cons,
          List.map_cons, List.sum_cons]
        ring

theorem allocItems_span_of_lt (b off : Int) (ns : List Nat) (i : Nat)
    (hns : i + 1 < ns.length) (hi : i < (allocItems b off ns).length) :
    ((allocItems b off ns)[i]).span = natSpan ns[i] := by
  induction ns generalizing off i with
  | nil => simp at hns
  | cons n rest ih =>
    cases rest with
    | nil => simp at hns
    | cons m rest2 =>
      cases i with
      | zero => simp [allocItems]
      | succ j =>
        have hns2 : j + 1 < (m :: rest2).length := by
          simpa using hns
        have hj : j < (allocItems b (off + natSpan n) (m :: rest2)).length := by
          simpa [allocItems] using hi
        have hrec := ih (off + natSpan n) j hns2 hj
        simpa [allocItems] using hrec

theorem allocItems_span_last (b off : Int) (ns : List Nat) (h : ns ≠ [])
    (hi : ns.length - 1 < (allocItems b off ns).length) :
    ((allocItems b off ns)[ns.length - 1]).span
      = b - (off + ((ns.take (ns.length - 1)).map natSpan).sum) := by
  induction ns generalizing off with
  | nil => exact absurd rfl h
  | cons n rest ih =>
    cases rest with
    | nil => simp [allocItems]
    | cons m rest2 =>
      have hi2 : (m :: rest2).length - 1
          < (allocItems b (off + natSpan n) (m :: rest2)).length := by
        rw [allocItems_length]
        simp
      have hrec := ih (off + natSpan n) (by simp) hi2
      simp only [List.length_cons, Nat.add_sub_cancel] at hrec ⊢
      simp only [allocItems, List.getElem_cons_succ, List.take_succ_cons,
        List.map_cons, List.sum_cons]
      rw [hrec]
      ring

theorem sum_take_le_sum_of_nonneg (l : List Int) (hl : ∀ x ∈ l, 0 ≤ x) (k : Nat) :
    (l.take k).sum ≤ l.sum := by
  conv_rhs => rw [← List.take_append_drop k l]
  rw [List.sum_append]
  have hd : 0 ≤ (l.drop k).sum :=
    List.sum_nonneg fun x hx => hl x (List.mem_of_mem_drop hx)
  omega

theorem natSpan_presum_mono (ns : List Nat) {i j : Nat} (hij : i ≤ j) :
    ((ns.take i).map natSpan).sum ≤ ((ns.take j).map natSpan).sum := by
  have h1 : ns.take i = (ns.take j).take i := by
    rw [List.take_take, min_eq_left hij]
  rw [h1, List.map_take]
  exact sum_take_le_sum_of_nonneg _
    (fun x hx => by
      obtain ⟨n, -, rfl⟩ := List.mem_map.mp hx
      exact le_trans (by norm_num) (one_le_natSpan n)) i

theorem natSpan_presum_succ (ns : List Nat) (i : Nat) (hi : i < ns.length) :
    ((ns.take (i + 1)).map natSpan).sum
      = ((ns.take i).map natSpan).sum + natSpan ns[i] := by
  rw [List.take_succ, List.getElem?_eq_getElem hi, Option.toList_some, List.map_append,
    List.sum_append]
  simp

theorem allocItems_contig (b off : Int) (ns : List Nat) (i : Nat)
    (hi : i + 1 < (allocItems b off ns).length) :
    ((allocItems b off ns)[i + 1]).start
      = ((allocItems b off ns)[i]).start + ((allocItems b off ns)[i]).span := by
  have hlen := allocItems_length b off ns
  have hns : i + 1 < ns.length := by omega
  have hi0 : i < (allocItems b off ns).length := by omega
  rw [allocItems_start b off ns (i + 1) hi, allocItems_start b off ns i hi0,
    allocItems_span_of_lt b off ns i hns hi0,
    natSpan_presum_succ ns i (by omega)]
  ring

theorem allocItems_no_overlap (b off : Int) (ns : List Nat) (i j : Nat)
    (hij : i < j) (hj : j < (allocItems b off ns).length) :
    ((allocItems b off ns)[i]).start + ((allocItems b off ns)[i]).span
      ≤ ((allocItems b off ns)[j]).start := by
  have hlen := allocItems_length b off ns
  have hi : i < (allocItems b off ns).length := by omega
  have hins : i + 1 < ns.length := by omega
  rw [allocItems_start b off ns i hi, allocItems_span_of_lt b off ns i hins hi,
    allocItems_start b off ns j hj]
  have hstep := natSpan_presum_succ ns i (by omega)
  have hmono := natSpan_presum_mono ns (i := i + 1) (j := j) (by omega)
  omega

theorem allocItems_take_spans (b off : Int) (ns : List Nat) (k : Nat)
    (hk : k < ns.length) :
    (((allocItems b off ns).take k).map SpanAlloc.span).sum
      = ((ns.take k).map natSpan).sum := by
  have hlen := allocItems_length b off ns
  congr 1
  apply List.ext_getElem
  · simp [hlen]
  · intro i h1 h2
    have h1m : i < min k (allocItems b off ns).length := by simpa using h1
    have hik : i < k := lt_of_lt_of_le h1m (min_le_left _ _)
    have hi : i < (allocItems b off ns).length := by omega
    simp only [List.getElem_map, List.getElem_take]
    exact allocItems_span_of_lt b off ns i (by omega) hi

theorem natSpan_sum_decomp (ns : List Nat) (hne : ns ≠ []) :
    (ns.map natSpan).sum
      = ((ns.take (ns.length - 1)).map natSpan).sum + natSpan (ns.getLast hne) := by
  conv_lhs => rw [← List.dropLast_append_getLast hne]
  rw [List.dropLast_eq_take]
  simp

theorem budget_causes (h : Hazard) :
    ((causeMeasureCounts h).map natSpan).sum ≤ ((blockRows h : Nat) : Int) := by
  rw [natSpan_sum_causes]
  have : totalPreventionMeasures h ≤ blockRows h :=
    le_trans (le_max_left _ _) (le_max_left _ _)
  exact_mod_cast this

theorem budget_cons (h : Hazard) :
    ((consMeasureCounts h).map natSpan).sum ≤ ((blockRows h : Nat) : Int) := by
  rw [natSpan_sum_cons]
  have : totalMitigationMeasures h ≤ blockRows h :=
    le_trans (le_max_right _ _) (le_max_left _ _)
  exact_mod_cast this

/-! ### Concrete records used by the witnesses -/

/-- A hazard with no causes and one consequence carrying two mitigation
measures. -/
def noCauseHazard : Hazard :=
  { id := "hz1", title := "t", description := ""
  , causes := []
  , consequences := [⟨"co1", "c", [⟨"m1", "x"⟩, ⟨"m2", "y"⟩], ⟨"", "", "", ""⟩⟩]
  , recommendations := [] }

/-- The spec's worked scenario: causes A (2 measures) and B (1 measure),
consequences X (1 measure) and Y (3 measures). -/
def scenarioHazard : Hazard :=
  { id := "hz2", title := "t", description := ""
  , causes :=
      [ ⟨"ca", "A", [⟨"p1", ""⟩, ⟨"p2", ""⟩]⟩
      , ⟨"cb", "B", [⟨"p3", ""⟩]⟩ ]
  , consequences :=
      [ ⟨"cx", "X", [⟨"q1", ""⟩], ⟨"", "", "", ""⟩⟩
      , ⟨"cy", "Y", [⟨"q2", ""⟩, ⟨"q3", ""⟩, ⟨"q4", ""⟩], ⟨"", "", "", ""⟩⟩ ]
  , recommendations := [] }

/-! ### Claims C1-C4 -/

/-- C1: for every hazard, the block row count equals
`max(preventionTotal, mitigationTotal, 1)`, where `preventionTotal` is the
sum over the causes of `max(#preventionMeasures, 1)` and `mitigationTotal`
the sum over the consequences of `max(#mitigationMeasures, 1)`; a hazard with
no causes has `preventionTotal = 0` (likewise for consequences), and the
result is always at least 1. -/
theorem C1_blockRows_spec (h : Hazard) :
    blockRows h
      = max (max ((h.causes.map fun c => max c.preventionMeasures.length 1).sum)
          ((h.consequences.map fun c => max c.mitigationMeasures.length 1).sum)) 1
    ∧ (h.causes = [] → totalPreventionMeasures h = 0)
    ∧ (h.consequences = [] → totalMitigationMeasures h = 0)
    ∧ 1 ≤ blockRows h := by
  refine ⟨?_, ?_, ?_, le_max_right _ _⟩
  · rw [blockRows, totalPreventionMeasures_eq_sum, totalMitigationMeasures_eq_sum]
  · intro hc
    rw [totalPreventionMeasures, hc]
    rfl
  · intro hc
    rw [totalMitigationMeasures, hc]
    rfl

/-- Witness for C1 at a hazard whose cause list is empty. -/
theorem C1_blockRows_spec_witness :
    totalPreventionMeasures noCauseHazard = 0
      ∧ 1 ≤ blockRows noCauseHazard
      ∧ blockRows noCauseHazard = 2 :=
  ⟨(C1_blockRows_spec noCauseHazard).2.1 rfl,
   (C1_blockRows_spec noCauseHazard).2.2.2, by decide⟩

/-- C2: on each non-empty side of a hazard block, the allocated spans sum
exactly to `blockRows`; independently of emptiness, each item starts where
the previous one ended, the first item starts at offset 0, and the row
ranges of two distinct items never overlap. -/
theorem C2_alloc_partition (h : Hazard) :
    (h.causes ≠ [] →
        ((allocCauses h).map SpanAlloc.span).sum = ((blockRows h : Nat) : Int))
    ∧ (∀ i, ∀ hi : i + 1 < (allocCauses h).length,
        ((allocCauses h)[i + 1]).start
          = ((allocCauses h)[i]).start + ((allocCauses h)[i]).span)
    ∧ (∀ hpos : 0 < (allocCauses h).length, ((allocCauses h)[0]).start = 0)
    ∧ (∀ i j, ∀ hij : i < j, ∀ hj : j < (allocCauses h).length,
        ((allocCauses h)[i]).start + ((allocCauses h)[i]).span
          ≤ ((allocCauses h)[j]).start)
    ∧ (h.consequences ≠ [] →
        ((allocConsequences h).map SpanAlloc.span).sum = ((blockRows h : Nat) : Int))
    ∧ (∀ i, ∀ hi : i + 1 < (allocConsequences h).length,
        ((allocConsequences h)[i + 1]).start
          = ((allocConsequences h)[i]).start + ((allocConsequences h)[i]).span)
    ∧ (∀ hpos : 0 < (allocConsequences h).length,
        ((allocConsequences h)[0]).start = 0)
    ∧ (∀ i j, ∀ hij : i < j, ∀ hj : j < (allocConsequences h).length,
        ((allocConsequences h)[i]).start + ((allocConsequences h)[i]).span
          ≤ ((allocConsequences h)[j]).start) := by
  refine ⟨?_, ?_, ?_, ?_, ?_, ?_, ?_, ?_⟩
  · intro hc
    have hne : causeMeasureCounts h ≠ [] := by
      simpa [causeMeasureCounts] using hc
    simpa using allocItems_span_sum ((blockRows h : Nat) : Int) 0 _ hne
  · intro i hi
    exact allocItems_contig _ _ _ i hi
  · intro hpos
    simpa using allocItems_start _ 0 _ 0 hpos
  · intro i j hij hj
    exact allocItems_no_overlap _ _ _ i j hij hj
  · intro hc
    have hne : consMeasureCounts h ≠ [] := by
      simpa [consMeasureCounts] using hc
    simpa using allocItems_span_sum ((blockRows h : Nat) : Int) 0 _ hne
  · intro i hi
    exact allocItems_contig _ _ _ i hi
  · intro hpos
    simpa using allocItems_start _ 0 _ 0 hpos
  · intro i j hij hj
    exact allocItems_no_overlap _ _ _ i j hij hj

/-- Witness for C2 at the spec's worked scenario (blockRows 4, causes
spanning 2+2, consequences 1+3). -/
theorem C2_alloc_partition_witness :
    ((allocCauses scenarioHazard).map SpanAlloc.span).sum
        = ((blockRows scenarioHazard : Nat) : Int)
      ∧ blockRows scenarioHazard = 4
      ∧ allocCauses scenarioHazard = [⟨0, 2⟩, ⟨2, 2⟩]
      ∧ allocConsequences scenarioHazard = [⟨0, 1⟩, ⟨1, 3⟩] :=
  ⟨(C2_alloc_partition scenarioHazard).1 (by decide), by decide, by decide, by decide⟩

/-- C3: with a row budget at least the sum of the natural spans and a
non-empty item list, every non-last item receives exactly its natural span
`max(measureCount, 1)`, the last item receives the budget minus the earlier
items' spans, which is at least its own natural span, and a one-item list
absorbs the whole budget. -/
theorem C3_last_item_expansion (b : Int) (ns : List Nat) (hne : ns ≠ [])
    (hbudget : (ns.map natSpan).sum ≤ b) :
    (∀ i, ∀ hns : i + 1 < ns.length, ∀ hi : i < (allocItems b 0 ns).length,
        ((allocItems b 0 ns)[i]).span = natSpan ns[i])
    ∧ (∀ hl : ns.length - 1 < (allocItems b 0 ns).length,
        ((allocItems b 0 ns)[ns.length - 1]).span
            = b - (((allocItems b 0 ns).take (ns.length - 1)).map SpanAlloc.span).sum
          ∧ natSpan (ns.getLast hne) ≤ ((allocItems b 0 ns)[ns.length - 1]).span)
    ∧ (ns.length = 1 → allocItems b 0 ns = [⟨0, b⟩]) := by
  have hlen0 : 0 < ns.length := List.length_pos.mpr hne
  refine ⟨fun i hns hi => allocItems_span_of_lt b 0 ns i hns hi, fun hl => ?_, ?_⟩
  · have htail : ns.length - 1 < ns.length := by omega
    have hlast := allocItems_span_last b 0 ns hne hl
    have htake := allocItems_take_spans b 0 ns (ns.length - 1) htail
    have hdecomp := natSpan_sum_decomp ns hne
    constructor
    · rw [hlast, htake]
      ring
    · rw [hlast]
      omega
  · intro h1
    match ns, h1 with
    | [n], _ => simp [allocItems]

/-- Witness for C3: a singleton list with natural span 3 absorbs a budget
of 7 rows. -/
theorem C3_last_item_expansion_witness :
    allocItems 7 0 [3] = [⟨0, 7⟩] :=
  (C3_last_item_expansion 7 [3] (by decide) (by decide)).2.2 rfl

theorem sum_range_ite_last (sp : Int) (k : Nat) :
    ((List.range (k + 1)).map (fun j => if j = k then sp - (j : Int) else 1)).sum
      = sp := by
  rw [List.range_succ, List.map_append, List.sum_append]
  have h : (List.range k).map (fun j => if j = k then sp - (j : Int) else 1)
      = (List.range k).map (fun _ => (1 : Int)) :=
    List.map_congr_left fun j hj => by simp [Nat.ne_of_lt (List.mem_range.mp hj)]
  rw [h]
  simp [List.map_const']

/-- C4: inside an item allocated at `itemStart` with span `itemSpan` and
`m ≥ 1` measures, every measure but the last occupies one row at consecutive
offsets from the item's start, the last measure's span is
`itemSpan - (m - 1)`, the measure spans sum to the item's span (so the
measures cover exactly the item's range), and an item with zero measures
produces no measure cells. -/
theorem C4_measure_rows (s sp : Int) (m : Nat) (hm : 1 ≤ m) :
    allocMeasures s sp 0 = []
    ∧ ((allocMeasures s sp m).map SpanAlloc.span).sum = sp
    ∧ (∀ j, ∀ _hjm : j + 1 < m, ∀ hj : j < (allocMeasures s sp m).length,
        (allocMeasures s sp m)[j] = ⟨s + (j : Int), 1⟩)
    ∧ (∀ hl : m - 1 < (allocMeasures s sp m).length,
        (allocMeasures s sp m)[m - 1]
          = ⟨s + ((m : Int) - 1), sp - ((m : Int) - 1)⟩)
    ∧ (∀ h0 : 0 < (allocMeasures s sp m).length,
        ((allocMeasures s sp m)[0]).start = s) := by
  obtain ⟨k, rfl⟩ : ∃ k, m = k + 1 := ⟨m - 1, by omega⟩
  refine ⟨rfl, ?_, ?_, ?_, ?_⟩
  · have key : (allocMeasures s sp (k + 1)).map SpanAlloc.span
        = (List.range (k + 1)).map (fun j => if j = k then sp - (j : Int) else 1) := by
      rw [allocMeasures, List.map_map]
      rfl
    rw [key, sum_range_ite_last]
  · intro j hjk hj
    simp only [allocMeasures, List.getElem_map, List.getElem_range]
    have hne2 : j ≠ k := by omega
    simp [hne2]
  · intro hl
    simp only [allocMeasures, List.getElem_map, List.getElem_range]
    have h1 : k + 1 - 1 = k := rfl
    simp [h1]
  · intro h0
    simp [allocMeasures]

/-- Witness for C4: the scenario's cause B occupies rows 2-3 with one
measure spanning both rows. -/
theorem C4_measure_rows_witness :
    ((allocMeasures 2 2 1).map SpanAlloc.span).sum = 2
      ∧ allocMeasures 2 2 1 = [⟨2, 2⟩] :=
  ⟨(C4_measure_rows 2 2 1 (le_refl 1)).2.1, by decide⟩

/-! ### Lookup lemmas for generated risk matrices -/

theorem objGet_eq_some_of_mem_of_unique {l : List (String × RiskLevel)} {k : String}
    {v : RiskLevel} (hmem : (k, v) ∈ l) (huniq : ∀ w, (k, w) ∈ l → w = v) :
    objGet l k = some v := by
  induction l with
  | nil => simp at hmem
  | cons kv rest ih =>
    obtain ⟨k1, v1⟩ := kv
    rw [objGet]
    by_cases hk : k1 = k
    · subst hk
      have hv : v1 = v := huniq v1 (List.mem_cons_self _ _)
      simp [hv]
    · have hmem2 : (k, v) ∈ rest := by
        rcases List.mem_cons.mp hmem with heq | htail
        · exact absurd (congrArg Prod.fst heq.symm) hk
        · exact htail
      simp only [if_neg hk]
      exact ih hmem2 fun w hw => huniq w (List.mem_cons_of_mem _ hw)

theorem objGet_eq_none_of_not_mem {l : List (String × RiskLevel)} {k : String}
    (h : ∀ w, (k, w) ∉ l) : objGet l k = none := by
  induction l with
  | nil => rfl
  | cons kv rest ih =>
    obtain ⟨k1, v1⟩ := kv
    rw [objGet]
    have hk : ¬k1 = k := by
      intro he
      subst he
      exact h v1 (List.mem_cons_self _ _)
    simp only [if_neg hk]
    exact ih fun w hw => h w (List.mem_cons_of_mem _ hw)

theorem mem_updateRiskMatrix (lik : List LikelihoodLevel) (sev : List SeverityLevel)
    (rls : List RiskLevel) (e : String × RiskLevel) :
    e ∈ updateRiskMatrix lik sev rls ↔
      ∃ li, ∃ hli : li < lik.length, ∃ si, ∃ hsi : si < sev.length,
        defaultRiskLevelFor rls lik.length sev.length li si = some e.2
          ∧ e.1 = matrixKey lik[li].id sev[si].id := by
  constructor
  · intro hmem
    obtain ⟨likE, hlikE, hmem2⟩ := List.mem_flatMap.mp hmem
    obtain ⟨sevE, hsevE, hg⟩ := List.mem_filterMap.mp hmem2
    obtain ⟨rl, hcell, hpair⟩ := Option.map_eq_some'.mp hg
    obtain ⟨hli, hlikeq⟩ := List.getElem?_eq_some.mp (List.mem_enum_iff_getElem?.mp hlikE)
    obtain ⟨hsi, hseveq⟩ := List.getElem?_eq_some.mp (List.mem_enum_iff_getElem?.mp hsevE)
    refine ⟨likE.1, hli, sevE.1, hsi, ?_, ?_⟩
    · rw [← hpair]
      exact hcell
    · rw [← hpair, hlikeq, hseveq]
  · rintro ⟨li, hli, si, hsi, hcell, hkey⟩
    refine List.mem_flatMap.mpr ⟨(li, lik[li]), ?_, ?_⟩
    · exact List.mem_enum_iff_getElem?.mpr (by simp [hli])
    · refine List.mem_filterMap.mpr ⟨(si, sev[si]), ?_, ?_⟩
      · exact List.mem_enum_iff_getElem?.mpr (by simp [hsi])
      · rw [hcell]
        simp only [Option.map_some']
        rw [← hkey]

/-! ### Claims C5 and C10 -/

/-- C5: whenever the risk-matrix mapping is regenerated from scratch, the
cell for likelihood index `li` and severity index `si` holds the risk level
at ordinal 2 when `(li+si)/((likelihoodCount-1)+(severityCount-1)) >= 0.7`,
the level at ordinal 1 when the ratio is `>= 0.4`, and the level at
ordinal 0 otherwise; the hypothesis `hkeys` records that the generated cell
keys identify the cell, which holds whenever level ids are distinct. -/
theorem C5_default_matrix_rule (lik : List LikelihoodLevel) (sev : List SeverityLevel)
    (rls : List RiskLevel) (li si : Nat) (hli : li < lik.length) (hsi : si < sev.length)
    (hkeys : ∀ li2, ∀ hli2 : li2 < lik.length, ∀ si2, ∀ hsi2 : si2 < sev.length,
        matrixKey lik[li2].id sev[si2].id = matrixKey lik[li].id sev[si].id →
        li2 = li ∧ si2 = si) :
    objGet (updateRiskMatrix lik sev rls) (matrixKey lik[li].id sev[si].id)
      = if (7 : ℚ) / 10
            ≤ ((li : ℚ) + (si : ℚ))
              / (((lik.length : ℚ) - 1) + ((sev.length : ℚ) - 1)) then rls[2]?
        else if (4 : ℚ) / 10
            ≤ ((li : ℚ) + (si : ℚ))
              / (((lik.length : ℚ) - 1) + ((sev.length : ℚ) - 1)) then rls[1]?
        else rls[0]? := by
  have hrule : defaultRiskLevelFor rls lik.length sev.length li si
      = if (7 : ℚ) / 10
            ≤ ((li : ℚ) + (si : ℚ))
              / (((lik.length : ℚ) - 1) + ((sev.length : ℚ) - 1)) then rls[2]?
        else if (4 : ℚ) / 10
            ≤ ((li : ℚ) + (si : ℚ))
              / (((lik.length : ℚ) - 1) + ((sev.length : ℚ) - 1)) then rls[1]?
        else rls[0]? := rfl
  rw [← hrule]
  cases hcell : defaultRiskLevelFor rls lik.length sev.length li si with
  | some rl =>
    apply objGet_eq_some_of_mem_of_unique
    · exact (mem_updateRiskMatrix lik sev rls _).mpr ⟨li, hli, si, hsi, hcell, rfl⟩
    · intro w hw
      obtain ⟨li2, hli2, si2, hsi2, hcell2, hkey2⟩ :=
        (mem_updateRiskMatrix lik sev rls _).mp hw
      obtain ⟨he1, he2⟩ := hkeys li2 hli2 si2 hsi2 hkey2.symm
      subst he1
      subst he2
      rw [hcell] at hcell2
      exact (Option.some.inj hcell2).symm
  | none =>
    apply objGet_eq_none_of_not_mem
    intro w hw
    obtain ⟨li2, hli2, si2, hsi2, hcell2, hkey2⟩ :=
      (mem_updateRiskMatrix lik sev rls _).mp hw
    obtain ⟨he1, he2⟩ := hkeys li2 hli2 si2 hsi2 hkey2.symm
    subst he1
    subst he2
    rw [hcell] at hcell2
    cases hcell2

/-- Witness for C5: against the default 5x5 lists, severity level 3 (index
2) with likelihood D (index 3) gives ratio 5/8 = 0.625 and resolves to the
"medium" risk level. -/
theorem C5_default_matrix_rule_witness :
    objGet (updateRiskMatrix defaultLikelihood defaultSeverity defaultRiskLevels)
        (matrixKey "D" "3") = some ⟨"medium", "Medium", "#ffc107"⟩ := by
  have happ := C5_default_matrix_rule defaultLikelihood defaultSeverity
    defaultRiskLevels 3 2 (by decide) (by decide) (by decide)
  rw [show matrixKey "D" "3"
      = matrixKey defaultLikelihood[3].id defaultSeverity[2].id from rfl, happ]
  norm_num [defaultLikelihood, defaultSeverity, defaultRiskLevels]

/-- C10: with exactly one likelihood level and one severity level, the
regeneration denominator `(1-1)+(1-1)` is 0; the `0/0` ratio (JS `NaN`,
modelled as `ℚ`'s `0/0 = 0`, which fails the same two `>=` comparisons)
satisfies neither threshold, so the single cell keeps the pre-initialized
ordinal-0 risk level; with the default risk levels that is "low". -/
theorem C10_single_cell_low (la : LikelihoodLevel) (sa : SeverityLevel)
    (r0 : RiskLevel) (rest : List RiskLevel) :
    updateRiskMatrix [la] [sa] (r0 :: rest) = [(matrixKey la.id sa.id, r0)]
    ∧ updateRiskMatrix [la] [sa] defaultRiskLevels
        = [(matrixKey la.id sa.id, ⟨"low", "Low", "#28a745"⟩)] := by
  constructor
  · norm_num [updateRiskMatrix, defaultRiskLevelFor, List.enum, List.filterMap_cons]
  · norm_num [updateRiskMatrix, defaultRiskLevelFor, List.enum, List.filterMap_cons,
      defaultRiskLevels]

/-! ### Risk-matrix configuration export and import -/

/-- The in-memory `state.riskMatrix` record (part_000 lines 91-149). -/
structure RiskMatrixState where
  likelihood : List LikelihoodLevel
  severity : List SeverityLevel
  severityDescriptions : List (String × List (String × String))
  riskLevels : List RiskLevel
  matrix : List (String × RiskLevel)
deriving Repr, DecidableEq

/-- The risk-matrix configuration JSON document (export shape, part_000
lines 851-861); fields that the importer guards with presence checks are
`Option`s. -/
structure RiskMatrixConfigDoc where
  likelihoodLevels : Nat
  likelihoodDescriptions : Option (List LikelihoodLevel)
  severityCategories : List String
  severityDescriptions : Option (List (String × List (String × String)))
  riskLevels : Nat
  riskLevelDescriptions : Option (List RiskLevel)
  matrix : Option (List (String × String))
deriving Repr, DecidableEq

/-- The export handler of `wireGlobalActions` (part_000 lines 850-868):
serialize the configuration, mapping each matrix cell to its risk level's
id. -/
def exportRiskMatrixConfig (st : RiskMatrixState) : RiskMatrixConfigDoc :=
  { likelihoodLevels := st.likelihood.length
  , likelihoodDescriptions :=
      some (st.likelihood.map fun l => ⟨l.id, l.label, l.description⟩)
  , severityCategories :=
      ["personnel", "asset", "environmental", "reputation", "operation"]
  , severityDescriptions := some st.severityDescriptions
  , riskLevels := st.riskLevels.length
  , riskLevelDescriptions := some (st.riskLevels.map fun r => ⟨r.id, r.label, r.color⟩)
  , matrix := some (st.matrix.map fun kv => (kv.1, kv.2.id)) }

/-- `riskLevels.find(r => r.id === riskLevelId)` (part_000 line 1449). -/
def findRiskLevelById (rls : List RiskLevel) (rid : String) : Option RiskLevel :=
  match rls with
  | [] => none
  | r :: rest => if r.id = rid then some r else findRiskLevelById rest rid

/-- `loadRiskMatrixFromJSON` (part_000 lines 1421-1457): replace the
likelihood, severity-description and risk-level lists when present; then
either rebuild the matrix from the imported id mapping, silently dropping
entries whose risk-level id does not resolve, or, when the document has no
`matrix` field, regenerate it with the default rule. -/
def loadRiskMatrixFromJSON (st : RiskMatrixState) (data : RiskMatrixConfigDoc) :
    RiskMatrixState :=
  let lik :=
    match data.likelihoodDescriptions with
    | some ls => ls.map fun l => (⟨l.id, l.label, l.description⟩ : LikelihoodLevel)
    | none => st.likelihood
  let sevDesc :=
    match data.severityDescriptions with
    | some d => d
    | none => st.severityDescriptions
  let rls :=
    match data.riskLevelDescriptions with
    | some rs => rs.map fun r => (⟨r.id, r.label, r.color⟩ : RiskLevel)
    | none => st.riskLevels
  match data.matrix with
  | some m =>
      { st with
        likelihood := lik
        severityDescriptions := sevDesc
        riskLevels := rls
        matrix :=
          m.filterMap fun kv => (findRiskLevelById rls kv.2).map fun rl => (kv.1, rl) }
  | none =>
      { st with
        likelihood := lik
        severityDescriptions := sevDesc
        riskLevels := rls
        matrix := updateRiskMatrix lik st.severity rls }

/-! ### Persistence layer -/

/-- The hazard document written by `scheduleSave` (part_000 line 715);
`compactMode` and `bowtieColors` do not matter to any claim and are
omitted from the model. -/
structure SavedDoc where
  hazards : List Hazard
  riskMatrix : RiskMatrixState
deriving Repr, DecidableEq

/-- The JSON value found in the key-value store, after parsing: a bare
hazard array (legacy format), a non-array document object, or unparsable
contents (`JSON.parse` throws). -/
inductive StoredValue where
  | corrupted : StoredValue
  | jsonArray : List Hazard → StoredValue
  | jsonDoc : SavedDoc → StoredValue
deriving Repr, DecidableEq

/-- `persist.save` (part_000 lines 75-81): serialize the document to the
store; the surrounding try/catch means it never throws. -/
def persistSave (doc : SavedDoc) : StoredValue :=
  StoredValue.jsonDoc doc

/-- `persist.load` (part_000 lines 64-74): `[]` when the key is absent or
parsing throws, otherwise `Array.isArray(data) ? data : []` — a non-array
document is coerced to the empty list. -/
def persistLoad : Option StoredValue → List Hazard
  | none => []
  | some StoredValue.corrupted => []
  | some (StoredValue.jsonArray hs) => hs
  | some (StoredValue.jsonDoc _) => []

/-- The starter hazard seeded by `init` (part_000 lines 230-236), with the
random ids abstracted to fixed fresh strings. -/
def starterHazard : Hazard :=
  { id := "seed", title := "New hazard", description := ""
  , causes := [⟨"seedc", "", []⟩]
  , consequences := [⟨"seedq", "", [], ⟨"", "", "", ""⟩⟩]
  , recommendations := [⟨"seedr", "", ""⟩] }

/-- The hazard restoration of `init` (part_000 lines 211-237): the result of
`persist.load()` is always an array, so `saved && saved.hazards` is always
falsy (an array has no `hazards` property), the `Array.isArray(saved)`
legacy branch always runs, and an empty list is replaced by a starter
hazard. -/
def initHazards (stored : Option StoredValue) : List Hazard :=
  let saved := persistLoad stored
  if saved.isEmpty then [starterHazard] else saved

/-! ### Risk fields in the interactive renderer and the export -/

/-- The computed branch of `renderRiskField` (part_000 lines 420-426):
recompute `riskScore` from the evaluator, write it back to the model, and
display it. Returns the updated risk and the displayed text. -/
def renderComputedRiskField (matrix : List (String × RiskLevel)) (risk : Risk) :
    Risk × String :=
  let score := computeRiskScore matrix risk.severityLevel risk.likelihoodLevel
  ({ risk with riskScore := score }, score)

/-- The value written to the export's Risk column (part_000 line 996):
`risk.riskScore || ''`, the cached field. -/
def exportRiskCellValue (risk : Risk) : String :=
  risk.riskScore

/-- The condition gating the export's conditional risk coloring (part_000
lines 1026-1028): a freshly resolved color and a non-empty cached
`riskScore`. -/
def exportRiskColorGate (matrix : List (String × RiskLevel)) (risk : Risk) : Prop :=
  getRiskLevelColor matrix risk.severityLevel risk.likelihoodLevel ≠ ""
    ∧ risk.riskScore ≠ ""

/-! ### Lemmas for the configuration round-trip -/

theorem findRiskLevelById_self {rls : List RiskLevel} {rl : RiskLevel}
    (hmem : rl ∈ rls) (hnd : (rls.map RiskLevel.id).Nodup) :
    findRiskLevelById rls rl.id = some rl := by
  induction rls with
  | nil => simp at hmem
  | cons r rest ih =>
    rw [findRiskLevelById]
    rcases List.mem_cons.mp hmem with rfl | htail
    · simp
    · have hnd2 : (rest.map RiskLevel.id).Nodup := (List.nodup_cons.mp hnd).2
      have hrne : ¬r.id = rl.id := by
        intro he
        exact (List.nodup_cons.mp hnd).1
          (he ▸ List.mem_map_of_mem RiskLevel.id htail)
      simp only [if_neg hrne]
      exact ih htail hnd2

theorem filterMap_resolve_id (rls : List RiskLevel) (l : List (String × RiskLevel))
    (hmem : ∀ kv ∈ l, kv.2 ∈ rls) (hnd : (rls.map RiskLevel.id).Nodup) :
    (l.filterMap fun kv =>
        (findRiskLevelById rls kv.2.id).map fun rl => (kv.1, rl)) = l := by
  induction l with
  | nil => rfl
  | cons kv rest ih =>
    rw [List.filterMap_cons,
      findRiskLevelById_self (hmem kv (List.mem_cons_self _ _)) hnd]
    simp only [Option.map_some']
    rw [ih fun kv2 h2 => hmem kv2 (List.mem_cons_of_mem _ h2)]

theorem map_eta_likelihood (ls : List LikelihoodLevel) :
    (ls.map fun l => (⟨l.id, l.label, l.description⟩ : LikelihoodLevel)) = ls :=
  (List.map_congr_left fun _ _ => rfl).trans (List.map_id _)

theorem map_eta_riskLevel (rs : List RiskLevel) :
    (rs.map fun r => (⟨r.id, r.label, r.color⟩ : RiskLevel)) = rs :=
  (List.map_congr_left fun _ _ => rfl).trans (List.map_id _)

/-! ### Claims C6-C9 -/

/-- C6: exporting the risk-matrix configuration and re-importing the
exported document reproduces the same risk level per cell (provided each
cell's level is one of the configured risk levels and level ids are
distinct, as regeneration guarantees); imported matrix entries whose
risk-level id resolves to no level are dropped silently; and an imported
document without a `matrix` field regenerates the mapping with the default
rule. -/
theorem C6_config_round_trip (st : RiskMatrixState)
    (hmem : ∀ kv ∈ st.matrix, kv.2 ∈ st.riskLevels)
    (hnd : (st.riskLevels.map RiskLevel.id).Nodup) :
    (loadRiskMatrixFromJSON st (exportRiskMatrixConfig st)).matrix = st.matrix
    ∧ (∀ data : RiskMatrixConfigDoc, ∀ m, data.matrix = some m →
        (∀ kv ∈ m,
          findRiskLevelById (data.riskLevelDescriptions.getD st.riskLevels) kv.2
            = none) →
        (loadRiskMatrixFromJSON st data).matrix = [])
    ∧ (∀ data : RiskMatrixConfigDoc, data.matrix = none →
        (loadRiskMatrixFromJSON st data).matrix
          = updateRiskMatrix (data.likelihoodDescriptions.getD st.likelihood)
              st.severity (data.riskLevelDescriptions.getD st.riskLevels)) := by
  refine ⟨?_, ?_, ?_⟩
  · rw [loadRiskMatrixFromJSON]
    simp only [exportRiskMatrixConfig, map_eta_riskLevel]
    rw [List.filterMap_map]
    exact filterMap_resolve_id st.riskLevels st.matrix hmem hnd
  · intro data m hm hnone
    rw [loadRiskMatrixFromJSON]
    cases hr : data.riskLevelDescriptions with
    | none =>
      simp only [hm, hr]
      rw [List.filterMap_eq_nil_iff]
      intro kv hkv
      have := hnone kv hkv
      rw [hr] at this
      simp only [Option.getD_none] at this
      simp [this]
    | some rs =>
      simp only [hm, hr, map_eta_riskLevel]
      rw [List.filterMap_eq_nil_iff]
      intro kv hkv
      have := hnone kv hkv
      rw [hr] at this
      simp only [Option.getD_some] at this
      simp [this]
  · intro data hm
    rw [loadRiskMatrixFromJSON]
    cases hr : data.riskLevelDescriptions with
    | none =>
      cases hl : data.likelihoodDescriptions with
      | none => simp [hm, hr, hl]
      | some ls => simp [hm, hr, hl, map_eta_likelihood]
    | some rs =>
      cases hl : data.likelihoodDescriptions with
      | none => simp [hm, hr, hl, map_eta_riskLevel]
      | some ls => simp [hm, hr, hl, map_eta_likelihood, map_eta_riskLevel]

/-- A concrete one-cell configuration for the C6 witness. -/
def smallConfigState : RiskMatrixState :=
  { likelihood := [⟨"A", "A", "Very unlikely"⟩]
  , severity := [⟨"1", "1", "Negligible effect", "personnel"⟩]
  , severityDescriptions := []
  , riskLevels := defaultRiskLevels
  , matrix := [("A-1", ⟨"low", "Low", "#28a745"⟩)] }

/-- Witness for C6: exporting then importing the one-cell configuration
returns the same matrix. -/
theorem C6_config_round_trip_witness :
    (loadRiskMatrixFromJSON smallConfigState
        (exportRiskMatrixConfig smallConfigState)).matrix
      = smallConfigState.matrix :=
  (C6_config_round_trip smallConfigState (by decide) (by decide)).1

/-- A saved hazard document carrying one real hazard. -/
def lostDoc : SavedDoc :=
  { hazards := [noCauseHazard], riskMatrix := smallConfigState }

/-- C7 (failing-input evaluation): `persist.save` stores the document
object `{ hazards, riskMatrix }`, but `persist.load`'s
`Array.isArray(data) ? data : []` coerces every non-array value to `[]`, so
loading after saving returns the empty list instead of the saved document
and `init` seeds a fresh starter hazard instead of restoring the saved
one; the `saved && saved.hazards` branch of `init` is unreachable through
`persist.load`. -/
theorem C7_save_load_loses_document :
    persistLoad (some (persistSave lostDoc)) = []
    ∧ lostDoc.hazards ≠ []
    ∧ initHazards (some (persistSave lostDoc)) = [starterHazard]
    ∧ starterHazard ∉ lostDoc.hazards := by
  exact ⟨rfl, by decide, rfl, by decide⟩

/-- A one-cell matrix mapping likelihood D and severity 3 to the "low"
level. -/
def staleMatrix : List (String × RiskLevel) :=
  [("D-3", ⟨"low", "Low", "#28a745"⟩)]

/-- A risk whose cached `riskScore` is stale relative to `staleMatrix`. -/
def staleRisk : Risk :=
  { severityCategory := "", severityLevel := "3", likelihoodLevel := "D"
  , riskScore := "High" }

/-- C8 counterexample: the evaluator resolves ("3", "D") to "Low" under
`staleMatrix`, but the export's Risk column writes the cached field
"High" — the exported value does not reflect the evaluator's current
result. -/
theorem C8_export_cached_counterexample :
    computeRiskScore staleMatrix staleRisk.severityLevel staleRisk.likelihoodLevel
        = "Low"
    ∧ exportRiskCellValue staleRisk = "High"
    ∧ exportRiskCellValue staleRisk
        ≠ computeRiskScore staleMatrix staleRisk.severityLevel
            staleRisk.likelihoodLevel := by
  refine ⟨by decide, rfl, by decide⟩

/-- C8 (amended): the interactive renderer's computed field recomputes
`riskScore` through the evaluator on every render and writes it back, and
its display shows that recomputed value; the export's Risk column instead
writes the cached `riskScore` field and gates its coloring on the freshly
resolved color together with the non-empty cached `riskScore`, so the
export agrees with the evaluator exactly when the cache does — in
particular immediately after a render. -/
theorem C8_render_recompute_export_cached (matrix : List (String × RiskLevel))
    (risk : Risk) :
    (renderComputedRiskField matrix risk).1.riskScore
        = computeRiskScore matrix risk.severityLevel risk.likelihoodLevel
    ∧ (renderComputedRiskField matrix risk).2
        = computeRiskScore matrix risk.severityLevel risk.likelihoodLevel
    ∧ exportRiskCellValue risk = risk.riskScore
    ∧ exportRiskCellValue (renderComputedRiskField matrix risk).1
        = computeRiskScore matrix risk.severityLevel risk.likelihoodLevel
    ∧ (exportRiskColorGate matrix risk ↔
        getRiskLevelColor matrix risk.severityLevel risk.likelihoodLevel ≠ ""
          ∧ risk.riskScore ≠ "")
    ∧ (exportRiskCellValue risk
          ≠ computeRiskScore matrix risk.severityLevel risk.likelihoodLevel →
        risk.riskScore
          ≠ computeRiskScore matrix risk.severityLevel risk.likelihoodLevel) :=
  ⟨rfl, rfl, rfl, rfl, Iff.rfl, fun h => h⟩

/-- C9: risk resolution returns the empty label/color whenever either level
is unset or the matrix has no cell for the pair; the helpers are total Lean
functions, so resolution failures cannot raise. -/
theorem C9_resolution_degrades_silently (matrix : List (String × RiskLevel))
    (sev lik : String)
    (h : sev = "" ∨ lik = "" ∨ objGet matrix (matrixKey lik sev) = none) :
    computeRiskScore matrix sev lik = ""
    ∧ getRiskLevelColor matrix sev lik = ""
    ∧ getRiskLevel matrix sev lik = "" := by
  rcases h with h | h | h
  · simp [computeRiskScore, getRiskLevelColor, getRiskLevel, h]
  · simp [computeRiskScore, getRiskLevelColor, getRiskLevel, h]
  · by_cases hs : sev = "" <;> by_cases hl : lik = "" <;>
      simp [computeRiskScore, getRiskLevelColor, getRiskLevel, hs, hl, h]

/-- Witness for C9 at an unset severity level and at an unmapped pair. -/
theorem C9_resolution_degrades_silently_witness :
    (computeRiskScore staleMatrix "" "D" = ""
      ∧ getRiskLevelColor staleMatrix "" "D" = ""
      ∧ getRiskLevel staleMatrix "" "D" = "")
    ∧ (computeRiskScore staleMatrix "5" "A" = ""
      ∧ getRiskLevelColor staleMatrix "5" "A" = ""
      ∧ getRiskLevel staleMatrix "5" "A" = "") :=
  ⟨C9_resolution_degrades_silently staleMatrix "" "D" (Or.inl rfl),
   C9_resolution_degrades_silently staleMatrix "5" "A" (Or.inr (Or.inr (by decide)))⟩

end NHazid
